import Mathlib

/-!
Verification of the webwaka-core-receipts module: a shallow embedding of the
receipt data model, hash utilities, validation layer, in-memory storage and
receipt service, translated from the TypeScript sources
(`types.ts`, `hash-utils.ts`, `validation.ts`, `storage.ts`,
`receipt-service.ts` and their compiled `dist/` counterparts).

Modelling conventions:
- JavaScript strings are modelled as `List Char` (`Str`); all the string
  operations used by the code (template literals, `substring`, `toUpperCase`,
  `.length`) act on ASCII data, where this model is exact.
- JavaScript numbers are modelled as `Int` with exact arithmetic.  Every
  numeric value this module manipulates (quantities, minor-unit amounts,
  subtotal/tax/total) is compared and added exactly (`===`, `+`); no property
  verified here depends on fractional values, and the module's own fixtures
  use integer amounts throughout.
- `Date` values are modelled by their ISO-8601 UTC rendering (the string
  `toISOString()` produces); `toISOString` is injective on instants, so `Date`
  equality coincides with equality of the rendering.
- The SHA-256 digest from `node:crypto` is external library code; it is kept
  abstract as a parameter `digest : HashInput → Str` standing for
  `sha256hex ∘ stableStringify`.  `fast-json-stable-stringify` over the fixed
  hash-input record is injective (fixed key set, canonical key order), so a
  collision of `digest` corresponds exactly to a SHA-256 collision, which the
  spec idealises away ("different payload yields a different digest with
  overwhelming probability"); theorems that need collision-freeness take it as
  an explicit hypothesis at the relevant pair of inputs.
- `async` functions have no intrinsic concurrency here (single-shot
  request/response per the spec); they are modelled as pure state-passing
  functions.  A thrown exception is modelled as `Except.error` paired with the
  unchanged storage state.
-/

namespace Receipts

/-- Decidable equality for `Except`, so that concrete runs of the fallible
operations can be checked by evaluation. -/
def exceptDecEq {ε α : Type} [DecidableEq ε] [DecidableEq α] :
    (a b : Except ε α) → Decidable (a = b)
  | .error e, .error e' =>
    if h : e = e' then .isTrue (by rw [h])
    else .isFalse (by intro hh; cases hh; exact h rfl)
  | .error _, .ok _ => .isFalse (by intro hh; cases hh)
  | .ok _, .error _ => .isFalse (by intro hh; cases hh)
  | .ok a, .ok a' =>
    if h : a = a' then .isTrue (by rw [h])
    else .isFalse (by intro hh; cases hh; exact h rfl)

instance {ε α : Type} [DecidableEq ε] [DecidableEq α] : DecidableEq (Except ε α) :=
  exceptDecEq

/-- JavaScript strings, modelled as lists of characters. -/
abbrev Str := List Char

/-- Turn a Lean string literal into the `Str` model. -/
def chars (s : String) : Str := s.data

/-! ### Association lists

`Map<string, T>` from `storage.ts` is modelled as an association list in
insertion order: `Map.set` on a present key overwrites in place (preserving
the original insertion position, as JS `Map` does), on an absent key appends.
-/

/-- `Map.get` (`undefined` becomes `none`). -/
def alookup {α : Type} (k : Str) : List (Str × α) → Option α
  | [] => none
  | (k', v) :: rest => if k' = k then some v else alookup k rest

/-- `Map.set`. -/
def aset {α : Type} (k : Str) (v : α) : List (Str × α) → List (Str × α)
  | [] => [(k, v)]
  | (k', v') :: rest => if k' = k then (k, v) :: rest else (k', v') :: aset k v rest

/-! ### ASCII upper-casing (JS `String.prototype.toUpperCase`)

The code upper-cases hexadecimal digits and verification codes, all ASCII;
the model maps `a`–`z` to `A`–`Z` and leaves everything else unchanged.
-/

/-- Upper-case one character (ASCII case mapping). -/
def charUpper (c : Char) : Char :=
  if 97 ≤ c.toNat ∧ c.toNat ≤ 122 then Char.ofNat (c.toNat - 32) else c

/-- `toUpperCase` on the string model. -/
def strUpper (s : Str) : Str := s.map charUpper

/-! ### Data model (`types.ts`) -/

/-- `ReceiptStatus` enum. -/
inductive ReceiptStatus where
  | issued
  | voided
  | refunded
deriving DecidableEq

/-- An `unknown` value stored in a metadata record.  The lifecycle code only
ever writes strings or leaves an optional field `undefined`, so those two
cases are modelled. -/
inductive MetaVal where
  | str (s : Str)
  | undef
deriving DecidableEq

/-- `Record<string, unknown>`, in key-insertion order. -/
abbrev Metadata := List (Str × MetaVal)

/-- `ReceiptLineItem`. -/
structure ReceiptLineItem where
  description : Str
  quantity : Int
  unitPrice : Int
  totalPrice : Int
  metadata : Option Metadata
deriving DecidableEq

/-- `Receipt`. -/
structure Receipt where
  receiptId : Str
  tenantId : Str
  transactionId : Str
  status : ReceiptStatus
  issuedAt : Str
  issuedBy : Str
  lineItems : List ReceiptLineItem
  subtotal : Int
  tax : Int
  total : Int
  currency : Str
  paymentMethod : Str
  auditEventId : Option Str
  hash : Str
  verificationCode : Str
  metadata : Option Metadata
deriving DecidableEq

/-- `ReceiptVerificationResult`. -/
structure ReceiptVerificationResult where
  valid : Bool
  receipt : Option Receipt
  reason : Option Str
deriving DecidableEq

/-- `PublicReceiptData` — the PII-free projection. -/
structure PublicReceiptData where
  receiptId : Str
  verificationCode : Str
  issuedAt : Str
  total : Int
  currency : Str
  status : ReceiptStatus
  hash : Str
deriving DecidableEq

/-- `CreateReceiptInput`. -/
structure CreateReceiptInput where
  tenantId : Str
  transactionId : Str
  issuedBy : Str
  lineItems : List ReceiptLineItem
  subtotal : Int
  tax : Int
  total : Int
  currency : Str
  paymentMethod : Str
  auditEventId : Option Str
  metadata : Option Metadata
deriving DecidableEq

/-- `VoidReceiptInput`. -/
structure VoidReceiptInput where
  tenantId : Str
  receiptId : Str
  voidedBy : Str
  reason : Str
  auditEventId : Option Str
deriving DecidableEq

/-- `RefundReceiptInput`. -/
structure RefundReceiptInput where
  tenantId : Str
  receiptId : Str
  refundedBy : Str
  reason : Str
  auditEventId : Option Str
deriving DecidableEq

/-- `Partial<Receipt>` as passed to `updateReceipt`: each key may be present
(`some`) or absent (`none`).  For the fields that are already optional on
`Receipt` the present value is itself an `Option`. -/
structure ReceiptUpdate where
  receiptId : Option Str := none
  tenantId : Option Str := none
  transactionId : Option Str := none
  status : Option ReceiptStatus := none
  issuedAt : Option Str := none
  issuedBy : Option Str := none
  lineItems : Option (List ReceiptLineItem) := none
  subtotal : Option Int := none
  tax : Option Int := none
  total : Option Int := none
  currency : Option Str := none
  paymentMethod : Option Str := none
  auditEventId : Option (Option Str) := none
  hash : Option Str := none
  verificationCode : Option Str := none
  metadata : Option (Option Metadata) := none
deriving DecidableEq

/-- The failure outcomes the module produces (`Error` throws and Zod
rejections), classified per the error taxonomy. -/
inductive ServiceError where
  /-- A Zod schema rejection; carries the offending field/schema name. -/
  | invalidInput (field : Str)
  /-- `Receipt already exists: <receiptId>` from `createReceipt`. -/
  | conflictReceiptExists (receiptId : Str)
  /-- `Receipt already exists for transaction: <transactionId>`. -/
  | conflictTransactionExists (transactionId : Str)
  /-- `Receipt not found: <receiptId>` from `updateReceipt`/`voidReceipt`/`refundReceipt`. -/
  | notFound (receiptId : Str)
  /-- `Cannot void receipt with status: <status>`. -/
  | cannotVoid (status : ReceiptStatus)
  /-- `Cannot refund receipt with status: <status>`. -/
  | cannotRefund (status : ReceiptStatus)
deriving DecidableEq

/-! ### Hash utilities (`hash-utils.ts` / `dist/hash-utils.js`)

The canonical `computeReceiptHash` hashes the immutable fields only.  (The
repository also carries a stale duplicated variant of `hash-utils.ts` that
feeds `status` and `metadata` into the hash; the shipped `dist/hash-utils.js`,
its declaration file, and the test suite — which asserts that the hash still
verifies after `void`/`refund` — all use the canonical variant embedded here.)
-/

/-- The `hashInput` record built by `computeReceiptHash`: exactly the
immutable proof-payload fields, with `issuedAt` rendered by `toISOString()`
(the identity in this model).  `status`, `metadata`, `hash` and
`verificationCode` are not part of it. -/
structure HashInput where
  receiptId : Str
  tenantId : Str
  transactionId : Str
  issuedAt : Str
  issuedBy : Str
  lineItems : List ReceiptLineItem
  subtotal : Int
  tax : Int
  total : Int
  currency : Str
  paymentMethod : Str
  auditEventId : Option Str
deriving DecidableEq

/-- Project a receipt onto its hash input. -/
def hashInput (r : Receipt) : HashInput :=
  { receiptId := r.receiptId
    tenantId := r.tenantId
    transactionId := r.transactionId
    issuedAt := r.issuedAt
    issuedBy := r.issuedBy
    lineItems := r.lineItems
    subtotal := r.subtotal
    tax := r.tax
    total := r.total
    currency := r.currency
    paymentMethod := r.paymentMethod
    auditEventId := r.auditEventId }

/-- `computeReceiptHash`: canonical serialization followed by the digest.
`digest` abstracts `sha256hex ∘ stableStringify`. -/
def computeReceiptHash (digest : HashInput → Str) (r : Receipt) : Str :=
  digest (hashInput r)

/-- `verifyReceiptHash`: recompute over the current content (the stored
`hash` field is dropped by the destructuring and is not an input) and compare
to the stored hash. -/
def verifyReceiptHash (digest : HashInput → Str) (r : Receipt) : Bool :=
  computeReceiptHash digest r == r.hash

/-- `generateVerificationCode`: first 8 characters of the hash, upper-cased,
grouped as two 4-character blocks separated by a hyphen. -/
def generateVerificationCode (hash : Str) : Str :=
  let code := strUpper (hash.take 8)
  code.take 4 ++ '-' :: (code.drop 4).take 4

/-- `verifyWithCode`: recompute the expected code from the stored hash and
compare case-insensitively with the supplied code. -/
def verifyWithCode (r : Receipt) (code : Str) : Bool :=
  generateVerificationCode r.hash == strUpper code

/-! ### Validation layer (`validation.ts`)

The Zod schemas are embedded as decidable structural checks.  Zod collects
all issues into one `ZodError`; only the success/failure outcome (and, for
the `.refine` cross-field check, that it runs after the structural checks)
is semantically load-bearing, so the error value just names a schema. -/

/-- `z.string().min(lo).max(hi)`. -/
def lenBetween (s : Str) (lo hi : Nat) : Bool :=
  decide (lo ≤ s.length) && decide (s.length ≤ hi)

/-- `TenantIdSchema = z.string().min(1).max(255)`. -/
def validTenantId (t : Str) : Bool := lenBetween t 1 255

/-- `UserIdSchema = z.string().min(1).max(255)`. -/
def validUserId (u : Str) : Bool := lenBetween u 1 255

/-- `TransactionIdSchema = z.string().min(1).max(255)`. -/
def validTransactionId (t : Str) : Bool := lenBetween t 1 255

/-- `LineItemSchema`. -/
def validLineItem (li : ReceiptLineItem) : Bool :=
  lenBetween li.description 1 500 && decide (0 < li.quantity) &&
    decide (0 ≤ li.unitPrice) && decide (0 ≤ li.totalPrice)

/-- The structural part of `CreateReceiptInputSchema` (everything except the
`.refine` arithmetic check). -/
def validCreateStructure (i : CreateReceiptInput) : Bool :=
  validTenantId i.tenantId && validTransactionId i.transactionId &&
    validUserId i.issuedBy && decide (1 ≤ i.lineItems.length) &&
    i.lineItems.all validLineItem && decide (0 ≤ i.subtotal) &&
    decide (0 ≤ i.tax) && decide (0 ≤ i.total) &&
    decide (i.currency.length = 3) && lenBetween i.paymentMethod 1 100

/-- `validate(CreateReceiptInputSchema, ·)`: structural checks, then the
`CurrencySchema` `.toUpperCase()` transform, then the
`subtotal + tax === total` refinement on the parsed data. -/
def validateCreate (i : CreateReceiptInput) :
    Except ServiceError CreateReceiptInput :=
  if validCreateStructure i then
    if i.subtotal + i.tax = i.total then
      .ok { i with currency := strUpper i.currency }
    else
      .error (.invalidInput (chars "total"))
  else
    .error (.invalidInput (chars "CreateReceiptInput"))

/-- `VoidReceiptInputSchema` (no transforms). -/
def validVoidInput (i : VoidReceiptInput) : Bool :=
  validTenantId i.tenantId && decide (1 ≤ i.receiptId.length) &&
    validUserId i.voidedBy && lenBetween i.reason 1 500

/-- `validate(VoidReceiptInputSchema, ·)`. -/
def validateVoid (i : VoidReceiptInput) : Except ServiceError VoidReceiptInput :=
  if validVoidInput i then .ok i
  else .error (.invalidInput (chars "VoidReceiptInput"))

/-- `RefundReceiptInputSchema` (no transforms). -/
def validRefundInput (i : RefundReceiptInput) : Bool :=
  validTenantId i.tenantId && decide (1 ≤ i.receiptId.length) &&
    validUserId i.refundedBy && lenBetween i.reason 1 500

/-- `validate(RefundReceiptInputSchema, ·)`. -/
def validateRefund (i : RefundReceiptInput) :
    Except ServiceError RefundReceiptInput :=
  if validRefundInput i then .ok i
  else .error (.invalidInput (chars "RefundReceiptInput"))

/-- `validate(TenantIdSchema, tenantId)`. -/
def validateTenant (t : Str) : Except ServiceError Str :=
  if validTenantId t then .ok t
  else .error (.invalidInput (chars "tenantId"))

/-! ### In-memory storage (`storage.ts` / `dist/storage.js`) -/

/-- The mutable state of an `InMemoryReceiptStorage` instance: the
`receipts` map and the `transactionIndex` map (transaction key → receiptId). -/
structure InMemoryReceiptStorage where
  receipts : List (Str × Receipt)
  transactionIndex : List (Str × Str)
deriving DecidableEq

namespace InMemoryReceiptStorage

/-- A freshly constructed storage. -/
def empty : InMemoryReceiptStorage := ⟨[], []⟩

/-- `getKey`: the template literal `` `${tenantId}:${receiptId}` ``. -/
def getKey (tenantId receiptId : Str) : Str := tenantId ++ ':' :: receiptId

/-- `getTransactionKey`: `` `${tenantId}:${transactionId}` ``. -/
def getTransactionKey (tenantId transactionId : Str) : Str :=
  tenantId ++ ':' :: transactionId

/-- `createReceipt`: reject if either key is already taken (throwing before
touching either map), otherwise write both indices. -/
def createReceipt (receipt : Receipt) (st : InMemoryReceiptStorage) :
    Except ServiceError Receipt × InMemoryReceiptStorage :=
  let key := getKey receipt.tenantId receipt.receiptId
  let txKey := getTransactionKey receipt.tenantId receipt.transactionId
  if (alookup key st.receipts).isSome then
    (.error (.conflictReceiptExists receipt.receiptId), st)
  else if (alookup txKey st.transactionIndex).isSome then
    (.error (.conflictTransactionExists receipt.transactionId), st)
  else
    (.ok receipt,
      { receipts := aset key receipt st.receipts
        transactionIndex := aset txKey receipt.receiptId st.transactionIndex })

/-- `getReceipt`: `this.receipts.get(key) || null`. -/
def getReceipt (st : InMemoryReceiptStorage) (tenantId receiptId : Str) :
    Option Receipt :=
  alookup (getKey tenantId receiptId) st.receipts

/-- `getReceiptByTransaction`: consult the transaction index, then delegate to
`getReceipt` under the same tenant.  The JS guard `if (!receiptId)` also
treats an empty-string id as missing (falsiness), which is modelled. -/
def getReceiptByTransaction (st : InMemoryReceiptStorage)
    (tenantId transactionId : Str) : Option Receipt :=
  match alookup (getTransactionKey tenantId transactionId) st.transactionIndex with
  | none => none
  | some receiptId =>
    if receiptId = [] then none else getReceipt st tenantId receiptId

/-- The object-spread merge in `updateReceipt`: `...existing, ...updates`,
then the five identity fields re-pinned from `existing` (the fields the
implementation marks `// Immutable`). -/
def applyUpdate (existing : Receipt) (updates : ReceiptUpdate) : Receipt :=
  { receiptId := existing.receiptId
    tenantId := existing.tenantId
    transactionId := existing.transactionId
    issuedAt := existing.issuedAt
    issuedBy := existing.issuedBy
    status := updates.status.getD existing.status
    lineItems := updates.lineItems.getD existing.lineItems
    subtotal := updates.subtotal.getD existing.subtotal
    tax := updates.tax.getD existing.tax
    total := updates.total.getD existing.total
    currency := updates.currency.getD existing.currency
    paymentMethod := updates.paymentMethod.getD existing.paymentMethod
    auditEventId := updates.auditEventId.getD existing.auditEventId
    hash := updates.hash.getD existing.hash
    verificationCode := updates.verificationCode.getD existing.verificationCode
    metadata := updates.metadata.getD existing.metadata }

/-- `updateReceipt`: look up, throw `Receipt not found` if absent, otherwise
merge and write back under the same key. -/
def updateReceipt (tenantId receiptId : Str) (updates : ReceiptUpdate)
    (st : InMemoryReceiptStorage) :
    Except ServiceError Receipt × InMemoryReceiptStorage :=
  let key := getKey tenantId receiptId
  match alookup key st.receipts with
  | none => (.error (.notFound receiptId), st)
  | some existing =>
    let updated := applyUpdate existing updates
    (.ok updated, { st with receipts := aset key updated st.receipts })

/-- Lexicographic comparison on the ISO-8601 renderings; on the fixed-width
UTC format `toISOString()` produces, this coincides with the numeric
`getTime()` ordering the comparator uses. -/
def isoLe : Str → Str → Bool
  | [], _ => true
  | _ :: _, [] => false
  | a :: as, b :: bs => if a < b then true else if b < a then false else isoLe as bs

/-- `listReceipts`: filter the tenant's receipts, stable-sort descending by
`issuedAt`, then `slice(offset, offset + limit)`. -/
def listReceipts (st : InMemoryReceiptStorage) (tenantId : Str)
    (limit offset : Nat) : List Receipt :=
  let tenantReceipts :=
    ((st.receipts.map Prod.snd).filter (fun r => r.tenantId = tenantId)).mergeSort
      (fun a b => isoLe b.issuedAt a.issuedAt)
  (tenantReceipts.drop offset).take limit

end InMemoryReceiptStorage

/-! ### Receipt service (`receipt-service.ts` / `dist/receipt-service.js`)

Each method validates its input first and then drives the storage.  The
non-deterministic environment inputs — the fresh `receiptId` from
`randomBytes(16).toString('hex')` and the `new Date()` timestamps — are
passed in as explicit arguments (`freshId`, `nowIso`). -/

namespace ReceiptService

open InMemoryReceiptStorage

/-- `generateReceipt`. -/
def generateReceipt (digest : HashInput → Str) (input : CreateReceiptInput)
    (freshId nowIso : Str) (st : InMemoryReceiptStorage) :
    Except ServiceError Receipt × InMemoryReceiptStorage :=
  match validateCreate input with
  | .error e => (.error e, st)
  | .ok validated =>
    let receiptWithoutHash : Receipt :=
      { receiptId := freshId
        tenantId := validated.tenantId
        transactionId := validated.transactionId
        status := .issued
        issuedAt := nowIso
        issuedBy := validated.issuedBy
        lineItems := validated.lineItems
        subtotal := validated.subtotal
        tax := validated.tax
        total := validated.total
        currency := validated.currency
        paymentMethod := validated.paymentMethod
        auditEventId := validated.auditEventId
        hash := []
        verificationCode := []
        metadata := validated.metadata }
    let h := computeReceiptHash digest receiptWithoutHash
    let receipt :=
      { receiptWithoutHash with
          hash := h
          verificationCode := generateVerificationCode h }
    createReceipt receipt st

/-- `getReceipt` (service): tenant validation then storage lookup. -/
def getReceipt (tenantId receiptId : Str) (st : InMemoryReceiptStorage) :
    Except ServiceError (Option Receipt) :=
  match validateTenant tenantId with
  | .error e => .error e
  | .ok _ => .ok (InMemoryReceiptStorage.getReceipt st tenantId receiptId)

/-- `getReceiptByTransaction` (service). -/
def getReceiptByTransaction (tenantId transactionId : Str)
    (st : InMemoryReceiptStorage) : Except ServiceError (Option Receipt) :=
  match validateTenant tenantId with
  | .error e => .error e
  | .ok _ => .ok (InMemoryReceiptStorage.getReceiptByTransaction st tenantId transactionId)

/-- `verifyReceipt`. -/
def verifyReceipt (digest : HashInput → Str) (tenantId receiptId : Str)
    (st : InMemoryReceiptStorage) : Except ServiceError ReceiptVerificationResult :=
  match validateTenant tenantId with
  | .error e => .error e
  | .ok _ =>
    match InMemoryReceiptStorage.getReceipt st tenantId receiptId with
    | none => .ok ⟨false, none, some (chars "Receipt not found")⟩
    | some receipt =>
      if verifyReceiptHash digest receipt then
        .ok ⟨true, some receipt, none⟩
      else
        .ok ⟨false, some receipt,
          some (chars "Receipt hash does not match content (tampered)")⟩

/-- `verifyReceiptByCode`. -/
def verifyReceiptByCode (tenantId receiptId code : Str)
    (st : InMemoryReceiptStorage) : Except ServiceError ReceiptVerificationResult :=
  match validateTenant tenantId with
  | .error e => .error e
  | .ok _ =>
    match InMemoryReceiptStorage.getReceipt st tenantId receiptId with
    | none => .ok ⟨false, none, some (chars "Receipt not found")⟩
    | some receipt =>
      if verifyWithCode receipt code then
        .ok ⟨true, some receipt, none⟩
      else
        .ok ⟨false, some receipt, some (chars "Verification code does not match")⟩

/-- `getPublicReceiptData`. -/
def getPublicReceiptData (tenantId receiptId : Str)
    (st : InMemoryReceiptStorage) : Except ServiceError (Option PublicReceiptData) :=
  match validateTenant tenantId with
  | .error e => .error e
  | .ok _ =>
    match InMemoryReceiptStorage.getReceipt st tenantId receiptId with
    | none => .ok none
    | some r =>
      .ok (some
        { receiptId := r.receiptId
          verificationCode := r.verificationCode
          issuedAt := r.issuedAt
          total := r.total
          currency := r.currency
          status := r.status
          hash := r.hash })

/-- Set a (string-keyed) entry in a metadata record, as an object literal
key does: overwrite if present, append otherwise. -/
def metaSet (k : Str) (v : MetaVal) : Metadata → Metadata
  | [] => [(k, v)]
  | (k', v') :: rest => if k' = k then (k, v) :: rest else (k', v') :: metaSet k v rest

/-- The merged metadata written by `voidReceipt`:
`...receipt.metadata` followed by the four void-trail keys (an absent
`auditEventId` becomes the key set to `undefined`). -/
def voidMetadata (old : Option Metadata) (validated : VoidReceiptInput)
    (nowIso : Str) : Metadata :=
  metaSet (chars "voidAuditEventId")
      (match validated.auditEventId with
        | some a => .str a
        | none => .undef) <|
    metaSet (chars "voidReason") (.str validated.reason) <|
      metaSet (chars "voidedAt") (.str nowIso) <|
        metaSet (chars "voidedBy") (.str validated.voidedBy) (old.getD [])

/-- `voidReceipt`. -/
def voidReceipt (input : VoidReceiptInput) (nowIso : Str)
    (st : InMemoryReceiptStorage) :
    Except ServiceError Receipt × InMemoryReceiptStorage :=
  match validateVoid input with
  | .error e => (.error e, st)
  | .ok validated =>
    match InMemoryReceiptStorage.getReceipt st validated.tenantId validated.receiptId with
    | none => (.error (.notFound validated.receiptId), st)
    | some receipt =>
      if receipt.status ≠ ReceiptStatus.issued then
        (.error (.cannotVoid receipt.status), st)
      else
        updateReceipt validated.tenantId validated.receiptId
          { status := some .voided
            metadata := some (some (voidMetadata receipt.metadata validated nowIso)) }
          st

/-- The merged metadata written by `refundReceipt`. -/
def refundMetadata (old : Option Metadata) (validated : RefundReceiptInput)
    (nowIso : Str) : Metadata :=
  metaSet (chars "refundAuditEventId")
      (match validated.auditEventId with
        | some a => .str a
        | none => .undef) <|
    metaSet (chars "refundReason") (.str validated.reason) <|
      metaSet (chars "refundedAt") (.str nowIso) <|
        metaSet (chars "refundedBy") (.str validated.refundedBy) (old.getD [])

/-- `refundReceipt`. -/
def refundReceipt (input : RefundReceiptInput) (nowIso : Str)
    (st : InMemoryReceiptStorage) :
    Except ServiceError Receipt × InMemoryReceiptStorage :=
  match validateRefund input with
  | .error e => (.error e, st)
  | .ok validated =>
    match InMemoryReceiptStorage.getReceipt st validated.tenantId validated.receiptId with
    | none => (.error (.notFound validated.receiptId), st)
    | some receipt =>
      if receipt.status ≠ ReceiptStatus.issued then
        (.error (.cannotRefund receipt.status), st)
      else
        updateReceipt validated.tenantId validated.receiptId
          { status := some .refunded
            metadata := some (some (refundMetadata receipt.metadata validated nowIso)) }
          st

/-- `listReceipts` (service). -/
def listReceipts (tenantId : Str) (limit offset : Nat)
    (st : InMemoryReceiptStorage) : Except ServiceError (List Receipt) :=
  match validateTenant tenantId with
  | .error e => .error e
  | .ok _ => .ok (InMemoryReceiptStorage.listReceipts st tenantId limit offset)

end ReceiptService

/-! ### The service's state-changing operations, as a step relation -/

/-- One mutating call on the service (the read paths do not change state). -/
inductive ServiceOp where
  | generate (digest : HashInput → Str) (input : CreateReceiptInput)
      (freshId nowIso : Str)
  | void (input : VoidReceiptInput) (nowIso : Str)
  | refund (input : RefundReceiptInput) (nowIso : Str)

/-- Run one mutating service call. -/
def applyOp (op : ServiceOp) (st : InMemoryReceiptStorage) :
    Except ServiceError Receipt × InMemoryReceiptStorage :=
  match op with
  | .generate digest input freshId nowIso =>
    ReceiptService.generateReceipt digest input freshId nowIso st
  | .void input nowIso => ReceiptService.voidReceipt input nowIso st
  | .refund input nowIso => ReceiptService.refundReceipt input nowIso st

/-! ### Predicates used by the verified properties -/

/-- The storage invariant that every write maintains: each receipt is stored
under the key built from its own `tenantId` and `receiptId`. -/
def wellKeyed (st : InMemoryReceiptStorage) : Prop :=
  ∀ k r, alookup k st.receipts = some r →
    k = InMemoryReceiptStorage.getKey r.tenantId r.receiptId

/-- Two receipts differ in at least one immutable proof-payload field.  (A
mutation of any single field of any line item makes the `lineItems` sequences
differ, so the per-element mutations are instances of that disjunct.) -/
def immutableFieldDiffers (r r' : Receipt) : Prop :=
  r'.receiptId ≠ r.receiptId ∨ r'.tenantId ≠ r.tenantId ∨
    r'.transactionId ≠ r.transactionId ∨ r'.issuedAt ≠ r.issuedAt ∨
    r'.issuedBy ≠ r.issuedBy ∨ r'.lineItems ≠ r.lineItems ∨
    r'.subtotal ≠ r.subtotal ∨ r'.tax ≠ r.tax ∨ r'.total ≠ r.total ∨
    r'.currency ≠ r.currency ∨ r'.paymentMethod ≠ r.paymentMethod ∨
    r'.auditEventId ≠ r.auditEventId

instance (r r' : Receipt) : Decidable (immutableFieldDiffers r r') := by
  unfold immutableFieldDiffers; infer_instance

/-- A lower-case hexadecimal digit (`0`–`9`, `a`–`f`), by code point. -/
def isHexLowerChar (c : Char) : Prop :=
  (48 ≤ c.toNat ∧ c.toNat ≤ 57) ∨ (97 ≤ c.toNat ∧ c.toNat ≤ 102)

instance (c : Char) : Decidable (isHexLowerChar c) := by
  unfold isHexLowerChar; infer_instance

/-- An upper-case hexadecimal digit (`0`–`9`, `A`–`F`), by code point. -/
def isHexUpperChar (c : Char) : Prop :=
  (48 ≤ c.toNat ∧ c.toNat ≤ 57) ∨ (65 ≤ c.toNat ∧ c.toNat ≤ 70)

instance (c : Char) : Decidable (isHexUpperChar c) := by
  unfold isHexUpperChar; infer_instance

/-- Matching the verification-code pattern: four upper-case hex digits, a
hyphen, four upper-case hex digits. -/
def codeFormat (s : Str) : Prop :=
  ∃ a b, s = a ++ '-' :: b ∧ a.length = 4 ∧ b.length = 4 ∧
    (∀ c ∈ a, isHexUpperChar c) ∧ (∀ c ∈ b, isHexUpperChar c)

/-- The shape of a SHA-256 hex digest: 64 lower-case hex characters. -/
def hexDigest (s : Str) : Prop :=
  s.length = 64 ∧ ∀ c ∈ s, isHexLowerChar c

instance (s : Str) : Decidable (hexDigest s) := by
  unfold hexDigest; infer_instance

/-- An update payload that touches only the mutable lifecycle fields, the way
`voidReceipt`/`refundReceipt` build theirs. -/
def statusMetadataOnly (u : ReceiptUpdate) : Prop :=
  u.lineItems = none ∧ u.subtotal = none ∧ u.tax = none ∧ u.total = none ∧
    u.currency = none ∧ u.paymentMethod = none ∧ u.auditEventId = none ∧
    u.hash = none ∧ u.verificationCode = none

/-! ### Concrete fixtures used to instantiate the verified properties -/

/-- A line item as in the repository's own fixtures. -/
def liW : ReceiptLineItem := ⟨chars "A", 1, 100, 100, none⟩

/-- A structurally valid creation input with `subtotal + tax = total`. -/
def inpW : CreateReceiptInput :=
  ⟨chars "tenant-1", chars "txn-1", chars "user-1", [liW], 1000, 75, 1075,
    chars "NGN", chars "cash", none, none⟩

/-- `inpW` with an inconsistent `total` (`1000 + 75 ≠ 1000`). -/
def inpBad : CreateReceiptInput := { inpW with total := 1000 }

/-- What `validateCreate` returns on `inpW`. -/
def vCreateW : CreateReceiptInput := { inpW with currency := chars "NGN" }

/-- A creation timestamp. -/
def isoW : Str := chars "2024-01-01T00:00:00.000Z"

/-- A later timestamp, for status changes. -/
def iso2W : Str := chars "2024-01-02T00:00:00.000Z"

/-- A constant digest stand-in. -/
def digConst : HashInput → Str := fun _ => chars "aabbccdd"

/-- A digest stand-in that distinguishes the two hash inputs of the
tamper-sensitivity instance below. -/
def dig2 : HashInput → Str := fun hi => if hi.total = 1075 then chars "d0" else chars "d1"

/-- A 64-character lower-case hex digest value. -/
def h64W : Str :=
  chars "a0b1c2d3a0b1c2d3a0b1c2d3a0b1c2d3a0b1c2d3a0b1c2d3a0b1c2d3a0b1c2d3"

/-- A digest stand-in with SHA-256-shaped output. -/
def dig64 : HashInput → Str := fun _ => h64W

/-- A receipt as stored at creation time (hash `d0` matches `dig2` on its
content, whose `total` is `1075`). -/
def r2W : Receipt :=
  ⟨chars "r", chars "tenant-1", chars "txn-1", .issued, isoW, chars "user-1",
    [liW], 1000, 75, 1075, chars "NGN", chars "cash", none, chars "d0",
    chars "D0D0-D0D0", none⟩

/-- `r2W` with its `total` tampered to a different value (stored hash kept). -/
def r2W' : Receipt := { r2W with total := 999 }

/-- A receipt sharing `r2W`'s stored hash but differing in every other field. -/
def r9b : Receipt :=
  ⟨chars "other", chars "tenant-2", chars "txn-9", .voided, iso2W,
    chars "user-9", [], 1, 2, 3, chars "USD", chars "card", some (chars "ae"),
    chars "d0", chars "XXXX-YYYY", some []⟩

/-- A receipt under tenant `a`. -/
def r3a : Receipt :=
  ⟨chars "r", chars "a", chars "x", .issued, isoW, chars "u", [liW], 100, 0,
    100, chars "NGN", chars "cash", none, chars "h", chars "c", none⟩

/-- The same `receiptId` (and even the same `transactionId`) under tenant `b`. -/
def r3b : Receipt := { r3a with tenantId := chars "b" }

/-- Storage holding `r3a`. -/
def st3 : InMemoryReceiptStorage := (InMemoryReceiptStorage.createReceipt r3a .empty).2

/-- A receipt under the (valid) tenant id `t:u`, well-hashed under `digConst`. -/
def r4 : Receipt := { r3a with tenantId := chars "t:u", hash := chars "aabbccdd" }

/-- Storage holding `r4`. -/
def st4 : InMemoryReceiptStorage := (InMemoryReceiptStorage.createReceipt r4 .empty).2

/-- A valid void request for `tenant-1`/`r`. -/
def vInpW : VoidReceiptInput :=
  ⟨chars "tenant-1", chars "r", chars "user-2", chars "Customer request", none⟩

/-- A valid refund request for `tenant-1`/`r`. -/
def rfInpW : RefundReceiptInput :=
  ⟨chars "tenant-1", chars "r", chars "user-2", chars "Defective product", none⟩

/-- An already-voided receipt at `tenant-1`/`r`. -/
def r5v : Receipt := { r2W with status := .voided }

/-- Storage holding the voided `r5v`. -/
def st5 : InMemoryReceiptStorage := (InMemoryReceiptStorage.createReceipt r5v .empty).2

/-- An issued receipt at `tenant-1`/`r`, well-hashed under `digConst`. -/
def r1W : Receipt := { r2W with hash := chars "aabbccdd" }

/-- Storage holding `r1W`. -/
def st1 : InMemoryReceiptStorage := (InMemoryReceiptStorage.createReceipt r1W .empty).2

/-- Storage holding `r2W` (for the update-payload instance). -/
def st6 : InMemoryReceiptStorage := (InMemoryReceiptStorage.createReceipt r2W .empty).2

/-- An update payload that carries a supposedly immutable field. -/
def u6 : ReceiptUpdate := { total := some 999 }

/-- The receipt `generateReceipt dig64 inpW "rid-1" isoW` produces. -/
def r8exp : Receipt :=
  ⟨chars "rid-1", chars "tenant-1", chars "txn-1", .issued, isoW,
    chars "user-1", [liW], 1000, 75, 1075, chars "NGN", chars "cash", none,
    h64W, chars "A0B1-C2D3", none⟩

/-- The storage state after that generation. -/
def st8 : InMemoryReceiptStorage :=
  (ReceiptService.generateReceipt dig64 inpW (chars "rid-1") isoW .empty).2

/-- A status-and-metadata-only update payload, as the lifecycle code sends. -/
def uMetaW : ReceiptUpdate := { status := some .voided, metadata := some (some []) }

/-- The receipt produced by applying `uMetaW` to `r2W`. -/
def rW6 : Receipt := InMemoryReceiptStorage.applyUpdate r2W uMetaW

/-- The storage state after that update. -/
def stW6 : InMemoryReceiptStorage :=
  (InMemoryReceiptStorage.updateReceipt (chars "tenant-1") (chars "r") uMetaW st6).2

/-! ### Auxiliary lemmas -/

theorem alookup_aset_self {α : Type} (k : Str) (v : α) (l : List (Str × α)) :
    alookup k (aset k v l) = some v := by
  induction l with
  | nil => simp [alookup, aset]
  | cons hd tl ih =>
    obtain ⟨k', v'⟩ := hd
    by_cases h : k' = k
    · simp [alookup, aset, h]
    · simp [alookup, aset, h, ih]

theorem alookup_aset_ne {α : Type} (k k' : Str) (v : α) (l : List (Str × α))
    (h : k' ≠ k) : alookup k' (aset k v l) = alookup k' l := by
  induction l with
  | nil =>
    simp only [aset, alookup]
    rw [if_neg (fun hh => h (Eq.symm hh))]
  | cons hd tl ih =>
    obtain ⟨k'', v''⟩ := hd
    by_cases hk : k'' = k
    · subst hk
      simp only [aset, if_pos rfl, alookup]
      rw [if_neg (by exact fun hh => h hh.symm), if_neg (by exact fun hh => h hh.symm)]
    · simp only [aset, if_neg hk, alookup]
      by_cases hk' : k'' = k'
      · simp [hk']
      · simp [hk', ih]

theorem Char.toNat_ofNat_of_lt (n : Nat) (h : n < 0xd800) : (Char.ofNat n).toNat = n := by
  unfold Char.ofNat
  rw [dif_pos (Or.inl (by omega))]
  rfl

theorem charUpper_idem (c : Char) : charUpper (charUpper c) = charUpper c := by
  unfold charUpper
  by_cases h : 97 ≤ c.toNat ∧ c.toNat ≤ 122
  · rw [if_pos h, if_neg]
    rw [Char.toNat_ofNat_of_lt (c.toNat - 32) (by omega)]
    omega
  · rw [if_neg h, if_neg h]

theorem strUpper_idem (s : Str) : strUpper (strUpper s) = strUpper s := by
  unfold strUpper
  rw [List.map_map]
  exact List.map_congr_left (fun c _ => charUpper_idem c)

theorem charUpper_hex {c : Char} (h : isHexLowerChar c) :
    isHexUpperChar (charUpper c) := by
  unfold isHexLowerChar at h
  unfold charUpper isHexUpperChar
  rcases h with ⟨h1, h2⟩ | ⟨h1, h2⟩
  · rw [if_neg (by omega)]
    exact Or.inl ⟨h1, h2⟩
  · rw [if_pos ⟨by omega, by omega⟩]
    rw [Char.toNat_ofNat_of_lt (c.toNat - 32) (by omega)]
    exact Or.inr ⟨by omega, by omega⟩

/-- `tenantId:receiptId` keys split unambiguously as long as the tenant ids
contain no `':'` themselves. -/
theorem key_append_inj {a b x y : Str} (ha : ':' ∉ a) (hb : ':' ∉ b)
    (h : a ++ ':' :: x = b ++ ':' :: y) : a = b ∧ x = y := by
  induction a generalizing b with
  | nil =>
    cases b with
    | nil => simpa using h
    | cons c b' =>
      simp only [List.nil_append, List.cons_append, List.cons.injEq] at h
      exact absurd (h.1 ▸ List.mem_cons_self c b') hb
  | cons c a' ih =>
    cases b with
    | nil =>
      simp only [List.cons_append, List.nil_append, List.cons.injEq] at h
      exact absurd (h.1.symm ▸ List.mem_cons_self c a') ha
    | cons d b' =>
      simp only [List.cons_append, List.cons.injEq] at h
      obtain ⟨rfl, h2⟩ := h
      have := ih (fun hm => ha (List.mem_cons_of_mem _ hm))
        (fun hm => hb (List.mem_cons_of_mem _ hm)) h2
      exact ⟨by rw [this.1], this.2⟩

theorem wellKeyed_empty : wellKeyed .empty := by
  intro k r h
  simp [alookup, InMemoryReceiptStorage.empty] at h

/-- A lookup in a map updated at the stored key of the written value either
hits the written value or falls through to the old map. -/
theorem alookup_aset_cases {α : Type} (k key : Str) (v : α) (l : List (Str × α))
    {w : α} (h : alookup k (aset key v l) = some w) :
    (k = key ∧ w = v) ∨ (k ≠ key ∧ alookup k l = some w) := by
  by_cases hk : k = key
  · subst hk
    rw [alookup_aset_self] at h
    exact Or.inl ⟨rfl, (Option.some.injEq _ _ ▸ h).symm⟩
  · rw [alookup_aset_ne _ _ _ _ hk] at h
    exact Or.inr ⟨hk, h⟩

theorem wellKeyed_createReceipt {r : Receipt} {st st' : InMemoryReceiptStorage}
    {res : Except ServiceError Receipt}
    (h : InMemoryReceiptStorage.createReceipt r st = (res, st'))
    (hw : wellKeyed st) : wellKeyed st' := by
  unfold InMemoryReceiptStorage.createReceipt at h
  dsimp only at h
  split at h
  · cases h; exact hw
  · split at h
    · cases h; exact hw
    · cases h
      intro k r' hk
      rcases alookup_aset_cases _ _ _ _ hk with ⟨rfl, rfl⟩ | ⟨_, hold⟩
      · rfl
      · exact hw _ _ hold

theorem wellKeyed_updateReceipt {t rid : Str} {u : ReceiptUpdate}
    {st st' : InMemoryReceiptStorage} {res : Except ServiceError Receipt}
    (h : InMemoryReceiptStorage.updateReceipt t rid u st = (res, st'))
    (hw : wellKeyed st) : wellKeyed st' := by
  unfold InMemoryReceiptStorage.updateReceipt at h
  dsimp only at h
  cases hex : alookup (InMemoryReceiptStorage.getKey t rid) st.receipts with
  | none => rw [hex] at h; cases h; exact hw
  | some existing =>
    rw [hex] at h
    dsimp only at h
    cases h
    intro k r' hk
    rcases alookup_aset_cases _ _ _ _ hk with ⟨rfl, rfl⟩ | ⟨_, hold⟩
    · have hkey := hw _ _ hex
      simpa [InMemoryReceiptStorage.applyUpdate] using hkey
    · exact hw _ _ hold

theorem wellKeyed_voidReceipt {input : VoidReceiptInput} {nowIso : Str}
    {st st' : InMemoryReceiptStorage} {res : Except ServiceError Receipt}
    (h : ReceiptService.voidReceipt input nowIso st = (res, st'))
    (hw : wellKeyed st) : wellKeyed st' := by
  unfold ReceiptService.voidReceipt at h
  cases hv : validateVoid input with
  | error e => rw [hv] at h; cases h; exact hw
  | ok v =>
    rw [hv] at h
    dsimp only at h
    cases hg : InMemoryReceiptStorage.getReceipt st v.tenantId v.receiptId with
    | none => rw [hg] at h; cases h; exact hw
    | some receipt =>
      rw [hg] at h
      dsimp only at h
      split at h
      · cases h; exact hw
      · exact wellKeyed_updateReceipt h hw

theorem wellKeyed_refundReceipt {input : RefundReceiptInput} {nowIso : Str}
    {st st' : InMemoryReceiptStorage} {res : Except ServiceError Receipt}
    (h : ReceiptService.refundReceipt input nowIso st = (res, st'))
    (hw : wellKeyed st) : wellKeyed st' := by
  unfold ReceiptService.refundReceipt at h
  cases hv : validateRefund input with
  | error e => rw [hv] at h; cases h; exact hw
  | ok v =>
    rw [hv] at h
    dsimp only at h
    cases hg : InMemoryReceiptStorage.getReceipt st v.tenantId v.receiptId with
    | none => rw [hg] at h; cases h; exact hw
    | some receipt =>
      rw [hg] at h
      dsimp only at h
      split at h
      · cases h; exact hw
      · exact wellKeyed_updateReceipt h hw

theorem wellKeyed_applyOp {op : ServiceOp} {st st' : InMemoryReceiptStorage}
    {res : Except ServiceError Receipt} (h : applyOp op st = (res, st'))
    (hw : wellKeyed st) : wellKeyed st' := by
  cases op with
  | generate digest input freshId nowIso =>
    unfold applyOp ReceiptService.generateReceipt at h
    dsimp only at h
    cases hv : validateCreate input with
    | error e => rw [hv] at h; cases h; exact hw
    | ok v =>
      rw [hv] at h
      dsimp only at h
      exact wellKeyed_createReceipt h hw
  | void input nowIso => exact wellKeyed_voidReceipt h hw
  | refund input nowIso => exact wellKeyed_refundReceipt h hw

theorem validateVoid_ok_iff {i v : VoidReceiptInput} :
    validateVoid i = .ok v ↔ validVoidInput i = true ∧ v = i := by
  unfold validateVoid
  by_cases h : validVoidInput i = true
  · simp [h, eq_comm]
  · simp [h]

theorem validateRefund_ok_iff {i v : RefundReceiptInput} :
    validateRefund i = .ok v ↔ validRefundInput i = true ∧ v = i := by
  unfold validateRefund
  by_cases h : validRefundInput i = true
  · simp [h, eq_comm]
  · simp [h]

theorem validVoidInput_tenant {i : VoidReceiptInput}
    (h : validVoidInput i = true) : validTenantId i.tenantId = true := by
  unfold validVoidInput at h
  simp only [Bool.and_eq_true] at h
  exact h.1.1.1

theorem validRefundInput_tenant {i : RefundReceiptInput}
    (h : validRefundInput i = true) : validTenantId i.tenantId = true := by
  unfold validRefundInput at h
  simp only [Bool.and_eq_true] at h
  exact h.1.1.1

theorem validateTenant_ok_of {t : Str} (h : validTenantId t = true) :
    validateTenant t = .ok t := by
  simp [validateTenant, h]

theorem generateVerificationCode_eq (h : Str) :
    generateVerificationCode h =
      strUpper (h.take 4) ++ '-' :: strUpper ((h.drop 4).take 4) := by
  unfold generateVerificationCode strUpper
  dsimp only
  congr 1
  · rw [← List.map_take, List.take_take]
    norm_num
  · congr 1
    rw [← List.map_drop, ← List.map_take]
    congr 1
    rw [List.drop_take, List.take_take]
    norm_num

theorem generateVerificationCode_format {h : Str} (hl : 8 ≤ h.length)
    (hh : ∀ c ∈ h, isHexLowerChar c) : codeFormat (generateVerificationCode h) := by
  rw [generateVerificationCode_eq]
  refine ⟨strUpper (h.take 4), strUpper ((h.drop 4).take 4), rfl, ?_, ?_, ?_, ?_⟩
  · simp only [strUpper, List.length_map, List.length_take]
    omega
  · simp only [strUpper, List.length_map, List.length_take, List.length_drop]
    omega
  · intro c hc
    simp only [strUpper, List.mem_map] at hc
    obtain ⟨x, hx, rfl⟩ := hc
    exact charUpper_hex (hh x (List.mem_of_mem_take hx))
  · intro c hc
    simp only [strUpper, List.mem_map] at hc
    obtain ⟨x, hx, rfl⟩ := hc
    exact charUpper_hex (hh x (List.mem_of_mem_drop (List.mem_of_mem_take hx)))

theorem h64W_hex : hexDigest h64W := by decide

theorem computeReceiptHash_hex {digest : HashInput → Str}
    (hhex : ∀ x, hexDigest (digest x)) (r : Receipt) :
    8 ≤ (computeReceiptHash digest r).length ∧
      ∀ c ∈ computeReceiptHash digest r, isHexLowerChar c := by
  unfold computeReceiptHash
  exact ⟨by rw [(hhex _).1]; omega, (hhex _).2⟩

/-- Core of tenant isolation for colon-free tenant ids: a stored lookup under
tenant `B` can only return a receipt whose own `tenantId` differs from any
other colon-free tenant `A`. -/
theorem getReceipt_store_isolated {st : InMemoryReceiptStorage}
    (hw : wellKeyed st) {A B q : Str} (hA : ':' ∉ A) (hB : ':' ∉ B)
    (hne : A ≠ B) {r : Receipt}
    (h : InMemoryReceiptStorage.getReceipt st B q = some r) : r.tenantId ≠ A := by
  intro hT
  have hk := hw _ _ h
  unfold InMemoryReceiptStorage.getKey at hk
  rw [hT] at hk
  exact hne ((key_append_inj hB hA hk).1).symm

/-! ### The claims -/

/-- Claim C9: the result of `verifyWithCode` depends only on the receipt's
stored `hash` field and the supplied code — two receipts with equal `hash`
fields but arbitrarily different values everywhere else give the same result
for every supplied code; the digest is never recomputed from the content. -/
theorem C9_verifyWithCode_hash_only (r r' : Receipt) (c : Str)
    (h : r.hash = r'.hash) : verifyWithCode r c = verifyWithCode r' c := by
  unfold verifyWithCode
  rw [h]

/-- `C9_verifyWithCode_hash_only` instantiated at two receipts that share a
hash but differ in every other field. -/
theorem C9_witness :
    r2W.hash = r9b.hash ∧
    verifyWithCode r2W (chars "D0D0-D0D0") = verifyWithCode r9b (chars "D0D0-D0D0") :=
  ⟨by decide, C9_verifyWithCode_hash_only r2W r9b (chars "D0D0-D0D0") (by decide)⟩

/-- Claim C10: every tenant-taking read path — `getReceipt`,
`getReceiptByTransaction`, `verifyReceipt`, `verifyReceiptByCode`,
`getPublicReceiptData`, `listReceipts` — rejects an empty or over-255-character
`tenantId` with a validation error (not a null/invalid result), uniformly in
the storage state, i.e. before any storage access. -/
theorem C10_tenant_validation_gate (t : Str) (hbad : t = [] ∨ 255 < t.length)
    (digest : HashInput → Str) (rid tx code : Str) (limit offset : Nat)
    (st : InMemoryReceiptStorage) :
    ReceiptService.getReceipt t rid st = .error (.invalidInput (chars "tenantId")) ∧
    ReceiptService.getReceiptByTransaction t tx st =
      .error (.invalidInput (chars "tenantId")) ∧
    ReceiptService.verifyReceipt digest t rid st =
      .error (.invalidInput (chars "tenantId")) ∧
    ReceiptService.verifyReceiptByCode t rid code st =
      .error (.invalidInput (chars "tenantId")) ∧
    ReceiptService.getPublicReceiptData t rid st =
      .error (.invalidInput (chars "tenantId")) ∧
    ReceiptService.listReceipts t limit offset st =
      .error (.invalidInput (chars "tenantId")) := by
  have hb : validTenantId t = false := by
    unfold validTenantId lenBetween
    rcases hbad with rfl | hlen
    · simp
    · simp
      omega
  have hv : validateTenant t = .error (.invalidInput (chars "tenantId")) := by
    simp [validateTenant, hb]
  refine ⟨?_, ?_, ?_, ?_, ?_, ?_⟩ <;>
    simp [ReceiptService.getReceipt, ReceiptService.getReceiptByTransaction,
      ReceiptService.verifyReceipt, ReceiptService.verifyReceiptByCode,
      ReceiptService.getPublicReceiptData, ReceiptService.listReceipts, hv]

/-- `C10_tenant_validation_gate` instantiated at the empty tenant id over a
non-empty storage state. -/
theorem C10_witness :
    ReceiptService.getReceipt [] (chars "r") st3 =
      .error (.invalidInput (chars "tenantId")) ∧
    ReceiptService.listReceipts [] 100 0 st3 =
      .error (.invalidInput (chars "tenantId")) :=
  ⟨(C10_tenant_validation_gate [] (Or.inl rfl) digConst (chars "r") (chars "x")
      (chars "c") 100 0 st3).1,
    (C10_tenant_validation_gate [] (Or.inl rfl) digConst (chars "r") (chars "x")
      (chars "c") 100 0 st3).2.2.2.2.2⟩

/-- Claim C3 counterexample: `receiptId` uniqueness is per tenant, not global —
creating a receipt that reuses an existing `receiptId` (and even the same
`transactionId`) under a different tenant succeeds instead of conflicting. -/
theorem C3_counterexample :
    (InMemoryReceiptStorage.createReceipt r3a .empty).1 = .ok r3a ∧
    (InMemoryReceiptStorage.createReceipt r3b st3).1 = .ok r3b ∧
    r3b.receiptId = r3a.receiptId ∧ r3b.transactionId = r3a.transactionId ∧
    r3b.tenantId ≠ r3a.tenantId := by
  decide

/-- Claim C3 (amended): `createReceipt` rejects with a `Conflict` error —
writing nothing to either index — any receipt whose `(tenantId, receiptId)`
key already exists in storage, and likewise any receipt whose
`(tenantId, transactionId)` key already exists (the receipt-id check runs
first); uniqueness of both is scoped per tenant, not global. -/
theorem C3_create_conflict_per_tenant (r : Receipt) (st : InMemoryReceiptStorage) :
    ((alookup (InMemoryReceiptStorage.getKey r.tenantId r.receiptId)
        st.receipts).isSome = true →
      InMemoryReceiptStorage.createReceipt r st =
        (.error (.conflictReceiptExists r.receiptId), st)) ∧
    ((alookup (InMemoryReceiptStorage.getKey r.tenantId r.receiptId)
        st.receipts).isSome = false →
      (alookup (InMemoryReceiptStorage.getTransactionKey r.tenantId r.transactionId)
        st.transactionIndex).isSome = true →
      InMemoryReceiptStorage.createReceipt r st =
        (.error (.conflictTransactionExists r.transactionId), st)) := by
  constructor
  · intro h1
    unfold InMemoryReceiptStorage.createReceipt
    dsimp only
    rw [if_pos h1]
  · intro h1 h2
    unfold InMemoryReceiptStorage.createReceipt
    dsimp only
    rw [if_neg (by simp [h1]), if_pos h2]

/-- `C3_create_conflict_per_tenant` instantiated at a duplicate
`(tenantId, receiptId)` create. -/
theorem C3_witness :
    (alookup (InMemoryReceiptStorage.getKey r3a.tenantId r3a.receiptId)
      st3.receipts).isSome = true ∧
    InMemoryReceiptStorage.createReceipt r3a st3 =
      (.error (.conflictReceiptExists r3a.receiptId), st3) :=
  ⟨by decide, (C3_create_conflict_per_tenant r3a st3).1 (by decide)⟩

/-- Claim C6 counterexample: `updateReceipt` re-pins only the five identity
fields; an update payload that carries `total` changes the stored receipt's
`total`, so not all fourteen immutable fields are preserved for arbitrary
payloads. -/
theorem C6_counterexample :
    (InMemoryReceiptStorage.updateReceipt (chars "tenant-1") (chars "r") u6 st6).1 =
      .ok (InMemoryReceiptStorage.applyUpdate r2W u6) ∧
    (InMemoryReceiptStorage.applyUpdate r2W u6).total = 999 ∧
    r2W.total = 1075 := by
  decide

/-- Claim C6 (amended): a successful `updateReceipt` always preserves the five
re-pinned identity fields (`receiptId`, `tenantId`, `transactionId`,
`issuedAt`, `issuedBy`) no matter what the payload contains; the remaining
nine immutable fields (`lineItems`, `subtotal`, `tax`, `total`, `currency`,
`paymentMethod`, `auditEventId`, `hash`, `verificationCode`) are preserved
whenever the payload carries only `status` and `metadata`, as the lifecycle
operations' payloads do. -/
theorem C6_update_repins_identity (t rid : Str) (u : ReceiptUpdate)
    (st st' : InMemoryReceiptStorage) (r' : Receipt)
    (h : InMemoryReceiptStorage.updateReceipt t rid u st = (.ok r', st')) :
    ∃ existing,
      alookup (InMemoryReceiptStorage.getKey t rid) st.receipts = some existing ∧
      r'.receiptId = existing.receiptId ∧ r'.tenantId = existing.tenantId ∧
      r'.transactionId = existing.transactionId ∧
      r'.issuedAt = existing.issuedAt ∧ r'.issuedBy = existing.issuedBy ∧
      (statusMetadataOnly u →
        r'.lineItems = existing.lineItems ∧ r'.subtotal = existing.subtotal ∧
        r'.tax = existing.tax ∧ r'.total = existing.total ∧
        r'.currency = existing.currency ∧
        r'.paymentMethod = existing.paymentMethod ∧
        r'.auditEventId = existing.auditEventId ∧ r'.hash = existing.hash ∧
        r'.verificationCode = existing.verificationCode) := by
  unfold InMemoryReceiptStorage.updateReceipt at h
  dsimp only at h
  cases hex : alookup (InMemoryReceiptStorage.getKey t rid) st.receipts with
  | none =>
    rw [hex] at h
    simp at h
  | some existing =>
    rw [hex] at h
    dsimp only at h
    have hr : r' = InMemoryReceiptStorage.applyUpdate existing u := by
      have := congrArg Prod.fst h
      simpa using this.symm
    subst hr
    refine ⟨existing, rfl, rfl, rfl, rfl, rfl, rfl, ?_⟩
    rintro ⟨h1, h2, h3, h4, h5, h6, h7, h8, h9⟩
    simp [InMemoryReceiptStorage.applyUpdate, h1, h2, h3, h4, h5, h6, h7, h8, h9]

/-- `C6_update_repins_identity` instantiated at a status-and-metadata-only
update on a stored receipt. -/
theorem C6_witness :
    ∃ existing,
      alookup (InMemoryReceiptStorage.getKey (chars "tenant-1") (chars "r"))
        st6.receipts = some existing ∧
      rW6.receiptId = existing.receiptId ∧ rW6.tenantId = existing.tenantId ∧
      rW6.transactionId = existing.transactionId ∧
      rW6.issuedAt = existing.issuedAt ∧ rW6.issuedBy = existing.issuedBy ∧
      (statusMetadataOnly uMetaW →
        rW6.lineItems = existing.lineItems ∧ rW6.subtotal = existing.subtotal ∧
        rW6.tax = existing.tax ∧ rW6.total = existing.total ∧
        rW6.currency = existing.currency ∧
        rW6.paymentMethod = existing.paymentMethod ∧
        rW6.auditEventId = existing.auditEventId ∧ rW6.hash = existing.hash ∧
        rW6.verificationCode = existing.verificationCode) :=
  C6_update_repins_identity (chars "tenant-1") (chars "r") uMetaW st6 stW6 rW6
    (by decide)

/-- Claim C4 counterexample: tenant isolation fails for tenant ids containing
`':'`, because the storage keys are built by plain string concatenation — a
receipt created under the (schema-valid) tenant `t:u` with id `r` is returned
by `getReceipt` under the distinct tenant `t` with id `u:r`, and even
verifies as valid there. -/
theorem C4_counterexample :
    validTenantId (chars "t:u") = true ∧ validTenantId (chars "t") = true ∧
    chars "t:u" ≠ chars "t" ∧ r4.tenantId = chars "t:u" ∧
    (InMemoryReceiptStorage.createReceipt r4 .empty).1 = .ok r4 ∧
    ReceiptService.getReceipt (chars "t") (chars "u:r") st4 = .ok (some r4) ∧
    ReceiptService.verifyReceipt digConst (chars "t") (chars "u:r") st4 =
      .ok ⟨true, some r4, none⟩ := by
  decide

/-- Claim C4 (amended): tenant isolation holds between any two distinct tenant
ids that contain no `':'` character (the key encoding is ambiguous otherwise):
in any well-keyed state — the empty storage is well-keyed and every service
operation preserves well-keyedness — no `getReceipt`, `getReceiptByTransaction`
or valid `verifyReceipt` result under tenant `B` can expose a receipt whose
`tenantId` is `A`. -/
theorem C4_tenant_isolation_colon_free :
    wellKeyed .empty ∧
    (∀ op st res st', applyOp op st = (res, st') → wellKeyed st → wellKeyed st') ∧
    (∀ st, wellKeyed st → ∀ A B : Str, ':' ∉ A → ':' ∉ B → A ≠ B →
      (∀ q r, ReceiptService.getReceipt B q st = .ok (some r) → r.tenantId ≠ A) ∧
      (∀ q r, ReceiptService.getReceiptByTransaction B q st = .ok (some r) →
        r.tenantId ≠ A) ∧
      (∀ digest q res, ReceiptService.verifyReceipt digest B q st = .ok res →
        res.valid = true → ∀ r, res.receipt = some r → r.tenantId ≠ A)) := by
  refine ⟨wellKeyed_empty, fun op st res st' h hw => wellKeyed_applyOp h hw, ?_⟩
  intro st hw A B hA hB hne
  refine ⟨?_, ?_, ?_⟩
  · intro q r h
    unfold ReceiptService.getReceipt at h
    cases hv : validateTenant B with
    | error e => rw [hv] at h; simp at h
    | ok _ =>
      rw [hv] at h
      have h' : InMemoryReceiptStorage.getReceipt st B q = some r := by
        simpa using h
      exact getReceipt_store_isolated hw hA hB hne h'
  · intro q r h
    unfold ReceiptService.getReceiptByTransaction at h
    cases hv : validateTenant B with
    | error e => rw [hv] at h; simp at h
    | ok _ =>
      rw [hv] at h
      have h' : InMemoryReceiptStorage.getReceiptByTransaction st B q = some r := by
        simpa using h
      unfold InMemoryReceiptStorage.getReceiptByTransaction at h'
      cases hm : alookup (InMemoryReceiptStorage.getTransactionKey B q)
          st.transactionIndex with
      | none => rw [hm] at h'; simp at h'
      | some rid =>
        rw [hm] at h'
        dsimp only at h'
        split at h'
        · simp at h'
        · exact getReceipt_store_isolated hw hA hB hne h'
  · intro digest q res h hvalid r hrec
    unfold ReceiptService.verifyReceipt at h
    cases hv : validateTenant B with
    | error e => rw [hv] at h; simp at h
    | ok _ =>
      rw [hv] at h
      cases hg : InMemoryReceiptStorage.getReceipt st B q with
      | none =>
        rw [hg] at h
        have hres := Except.ok.inj h
        rw [← hres] at hvalid
        simp at hvalid
      | some receipt =>
        rw [hg] at h
        dsimp only at h
        split at h
        · have hres := Except.ok.inj h
          rw [← hres] at hrec
          have hr : receipt = r := Option.some.inj (by simpa using hrec)
          exact getReceipt_store_isolated hw hA hB hne (hr ▸ hg)
        · have hres := Except.ok.inj h
          rw [← hres] at hvalid
          simp at hvalid

/-- `C4_tenant_isolation_colon_free` instantiated at a populated well-keyed
state: the receipt that `getReceipt` returns under tenant `a` cannot belong to
the distinct colon-free tenant `c`. -/
theorem C4_witness :
    ReceiptService.getReceipt (chars "a") (chars "r") st3 = .ok (some r3a) ∧
    r3a.tenantId ≠ chars "c" :=
  ⟨by decide,
    (C4_tenant_isolation_colon_free.2.2 st3
        (@wellKeyed_createReceipt r3a .empty st3
          (InMemoryReceiptStorage.createReceipt r3a .empty).1 rfl wellKeyed_empty)
        (chars "c") (chars "a") (by decide) (by decide) (by decide)).1
      (chars "r") r3a (by decide)⟩

/-- Claim C2: tamper sensitivity of the stored hash.  If a receipt's hash was
computed at creation and any single immutable proof field — `receiptId`,
`tenantId`, `transactionId`, `issuedAt`, `issuedBy`, any field of any
`lineItems` element (which changes the `lineItems` sequence), `subtotal`,
`tax`, `total`, `currency`, `paymentMethod` or `auditEventId` — is mutated to
a different value, the canonical hash input changes, so `verifyReceiptHash`
returns `false` whenever the digest does not collide on the two (distinct)
hash inputs — the spec's own collision-resistance idealisation. -/
theorem C2_tamper_sensitivity (digest : HashInput → Str) (r r' : Receipt)
    (hcreated : r.hash = computeReceiptHash digest r)
    (hstored : r'.hash = r.hash)
    (hdiff : immutableFieldDiffers r r') :
    hashInput r' ≠ hashInput r ∧
      (digest (hashInput r') ≠ digest (hashInput r) →
        verifyReceiptHash digest r' = false) := by
  constructor
  · intro heq
    rcases hdiff with h | h | h | h | h | h | h | h | h | h | h | h
    · exact h (congrArg HashInput.receiptId heq)
    · exact h (congrArg HashInput.tenantId heq)
    · exact h (congrArg HashInput.transactionId heq)
    · exact h (congrArg HashInput.issuedAt heq)
    · exact h (congrArg HashInput.issuedBy heq)
    · exact h (congrArg HashInput.lineItems heq)
    · exact h (congrArg HashInput.subtotal heq)
    · exact h (congrArg HashInput.tax heq)
    · exact h (congrArg HashInput.total heq)
    · exact h (congrArg HashInput.currency heq)
    · exact h (congrArg HashInput.paymentMethod heq)
    · exact h (congrArg HashInput.auditEventId heq)
  · intro hne
    unfold verifyReceiptHash computeReceiptHash
    rw [hstored, hcreated]
    unfold computeReceiptHash
    exact beq_eq_false_iff_ne.mpr hne

/-- `C2_tamper_sensitivity` instantiated at a well-hashed receipt whose
`total` is mutated from 1075 to 999 while the stored hash is kept. -/
theorem C2_witness :
    r2W.hash = computeReceiptHash dig2 r2W ∧ r2W'.hash = r2W.hash ∧
    r2W'.total ≠ r2W.total ∧
    hashInput r2W' ≠ hashInput r2W ∧ verifyReceiptHash dig2 r2W' = false := by
  have h := C2_tamper_sensitivity dig2 r2W r2W' (by decide) (by decide) (by decide)
  exact ⟨by decide, by decide, by decide, h.1, h.2 (by decide)⟩

/-- Claim C7: `generateReceipt` rejects, with a validation error and without
touching storage, every input whose `subtotal + tax` differs from `total`
(whether or not the rest is structurally valid); and every input that passes
validation succeeds — absent a storage conflict on either index — returning a
receipt whose status is `Issued`. -/
theorem C7_arithmetic_validation :
    (∀ (digest : HashInput → Str) (input : CreateReceiptInput)
        (freshId nowIso : Str) (st : InMemoryReceiptStorage),
      input.subtotal + input.tax ≠ input.total →
      ∃ f, ReceiptService.generateReceipt digest input freshId nowIso st =
        (.error (.invalidInput f), st)) ∧
    (∀ (digest : HashInput → Str) (input v : CreateReceiptInput)
        (freshId nowIso : Str) (st : InMemoryReceiptStorage),
      validateCreate input = .ok v →
      (alookup (InMemoryReceiptStorage.getKey v.tenantId freshId)
        st.receipts).isSome = false →
      (alookup (InMemoryReceiptStorage.getTransactionKey v.tenantId v.transactionId)
        st.transactionIndex).isSome = false →
      ∃ r st', ReceiptService.generateReceipt digest input freshId nowIso st =
        (.ok r, st') ∧ r.status = .issued) := by
  constructor
  · intro digest input freshId nowIso st hne
    unfold ReceiptService.generateReceipt validateCreate
    by_cases hs : validCreateStructure input = true
    · rw [if_pos hs, if_neg hne]
      exact ⟨chars "total", rfl⟩
    · rw [if_neg hs]
      exact ⟨chars "CreateReceiptInput", rfl⟩
  · intro digest input v freshId nowIso st hval h1 h2
    unfold ReceiptService.generateReceipt
    rw [hval]
    dsimp only
    unfold InMemoryReceiptStorage.createReceipt
    dsimp only
    rw [if_neg (by simp [h1]), if_neg (by simp [h2])]
    exact ⟨_, _, rfl, rfl⟩

/-- `C7_arithmetic_validation` instantiated at an arithmetically inconsistent
input (rejected) and a consistent one (issued). -/
theorem C7_witness :
    inpBad.subtotal + inpBad.tax ≠ inpBad.total ∧
    (∃ f, ReceiptService.generateReceipt digConst inpBad (chars "rid-1") isoW
        .empty = (.error (.invalidInput f), .empty)) ∧
    validateCreate inpW = .ok vCreateW ∧
    (∃ r st', ReceiptService.generateReceipt digConst inpW (chars "rid-1") isoW
        .empty = (.ok r, st') ∧ r.status = .issued) :=
  ⟨by decide,
    C7_arithmetic_validation.1 digConst inpBad (chars "rid-1") isoW .empty
      (by decide),
    by decide,
    C7_arithmetic_validation.2 digConst inpW vCreateW (chars "rid-1") isoW .empty
      (by decide) (by decide) (by decide)⟩

/-- Claim C8: `generateVerificationCode` returns exactly the first 8
characters of the digest, upper-cased, grouped as two 4-character blocks
joined by a hyphen; on a hex digest of length ≥ 8 the result matches the
`XXXX-XXXX` upper-hex shape, so every receipt `generateReceipt` returns under
a SHA-256-shaped digest has a verification code of that shape; and
`verifyWithCode` compares case-insensitively: supplying `c` and supplying the
upper-cased `c` give the same answer. -/
theorem C8_verification_code :
    (∀ h : Str,
      generateVerificationCode h =
        strUpper (h.take 4) ++ '-' :: strUpper ((h.drop 4).take 4) ∧
      (8 ≤ h.length → (∀ c ∈ h, isHexLowerChar c) →
        codeFormat (generateVerificationCode h))) ∧
    (∀ (digest : HashInput → Str) (input : CreateReceiptInput)
        (freshId nowIso : Str) (st : InMemoryReceiptStorage)
        (r : Receipt) (st' : InMemoryReceiptStorage),
      (∀ x, hexDigest (digest x)) →
      ReceiptService.generateReceipt digest input freshId nowIso st = (.ok r, st') →
      codeFormat r.verificationCode) ∧
    (∀ (r : Receipt) (c : Str), verifyWithCode r c = verifyWithCode r (strUpper c)) := by
  refine ⟨fun h => ⟨generateVerificationCode_eq h,
    fun hl hh => generateVerificationCode_format hl hh⟩, ?_, ?_⟩
  · intro digest input freshId nowIso st r st' hhex hgen
    unfold ReceiptService.generateReceipt at hgen
    cases hv : validateCreate input with
    | error e => rw [hv] at hgen; simp at hgen
    | ok v =>
      rw [hv] at hgen
      dsimp only at hgen
      unfold InMemoryReceiptStorage.createReceipt at hgen
      dsimp only at hgen
      split at hgen
      · simp at hgen
      · split at hgen
        · simp at hgen
        · injection hgen with h1 h2
          injection h1 with h1
          rw [← h1]
          exact generateVerificationCode_format
            (computeReceiptHash_hex hhex _).1 (computeReceiptHash_hex hhex _).2
  · intro r c
    unfold verifyWithCode
    rw [strUpper_idem]

/-- `C8_verification_code` instantiated at a 64-character hex digest, at a
concrete generated receipt, and at a lower-case supplied code. -/
theorem C8_witness :
    generateVerificationCode h64W =
      strUpper (h64W.take 4) ++ '-' :: strUpper ((h64W.drop 4).take 4) ∧
    codeFormat (generateVerificationCode h64W) ∧
    codeFormat r8exp.verificationCode ∧
    verifyWithCode r8exp (chars "a0b1-c2d3") =
      verifyWithCode r8exp (strUpper (chars "a0b1-c2d3")) :=
  ⟨(C8_verification_code.1 h64W).1,
    (C8_verification_code.1 h64W).2 (by decide) (by decide),
    C8_verification_code.2.1 dig64 inpW (chars "rid-1") isoW .empty r8exp st8
      (fun _ => h64W_hex) (by decide),
    C8_verification_code.2.2 r8exp (chars "a0b1-c2d3")⟩

/-- Claim C5: `voidReceipt` and `refundReceipt` fail with a not-found error
when no receipt exists for the given `(tenantId, receiptId)`, fail with an
invalid-transition error whenever the receipt is not `Issued` (so
void-after-void, refund-after-void, void-after-refund and
refund-after-refund are all rejected), leaving the storage state unchanged in
every failure case; and across all mutating service operations a stored
entry's status only ever moves `Issued → Voided` or `Issued → Refunded` —
never out of a terminal state. -/
theorem C5_state_machine :
    (∀ (input : VoidReceiptInput) (nowIso : Str) (st : InMemoryReceiptStorage),
      validateVoid input = .ok input →
      InMemoryReceiptStorage.getReceipt st input.tenantId input.receiptId = none →
      ReceiptService.voidReceipt input nowIso st =
        (.error (.notFound input.receiptId), st)) ∧
    (∀ (input : RefundReceiptInput) (nowIso : Str) (st : InMemoryReceiptStorage),
      validateRefund input = .ok input →
      InMemoryReceiptStorage.getReceipt st input.tenantId input.receiptId = none →
      ReceiptService.refundReceipt input nowIso st =
        (.error (.notFound input.receiptId), st)) ∧
    (∀ (input : VoidReceiptInput) (nowIso : Str) (st : InMemoryReceiptStorage) r,
      validateVoid input = .ok input →
      InMemoryReceiptStorage.getReceipt st input.tenantId input.receiptId = some r →
      r.status ≠ .issued →
      ReceiptService.voidReceipt input nowIso st =
        (.error (.cannotVoid r.status), st)) ∧
    (∀ (input : RefundReceiptInput) (nowIso : Str) (st : InMemoryReceiptStorage) r,
      validateRefund input = .ok input →
      InMemoryReceiptStorage.getReceipt st input.tenantId input.receiptId = some r →
      r.status ≠ .issued →
      ReceiptService.refundReceipt input nowIso st =
        (.error (.cannotRefund r.status), st)) ∧
    (∀ op st res st', applyOp op st = (res, st') →
      ∀ k r r', alookup k st.receipts = some r → alookup k st'.receipts = some r' →
        r'.status = r.status ∨
          (r.status = .issued ∧ (r'.status = .voided ∨ r'.status = .refunded))) := by
  refine ⟨?_, ?_, ?_, ?_, ?_⟩
  · intro input nowIso st hval hnone
    unfold ReceiptService.voidReceipt
    rw [hval]
    dsimp only
    rw [hnone]
  · intro input nowIso st hval hnone
    unfold ReceiptService.refundReceipt
    rw [hval]
    dsimp only
    rw [hnone]
  · intro input nowIso st r hval hsome hst
    unfold ReceiptService.voidReceipt
    rw [hval]
    dsimp only
    rw [hsome]
    dsimp only
    rw [if_pos hst]
  · intro input nowIso st r hval hsome hst
    unfold ReceiptService.refundReceipt
    rw [hval]
    dsimp only
    rw [hsome]
    dsimp only
    rw [if_pos hst]
  · intro op st res st' h k r r' hr hr'
    cases op with
    | generate digest input freshId nowIso =>
      unfold applyOp ReceiptService.generateReceipt at h
      dsimp only at h
      cases hv : validateCreate input with
      | error e =>
        rw [hv] at h
        cases h
        rw [hr] at hr'
        exact Or.inl (by cases hr'; rfl)
      | ok v =>
        rw [hv] at h
        dsimp only at h
        unfold InMemoryReceiptStorage.createReceipt at h
        dsimp only at h
        split at h
        · cases h
          rw [hr] at hr'
          exact Or.inl (by cases hr'; rfl)
        · split at h
          · cases h
            rw [hr] at hr'
            exact Or.inl (by cases hr'; rfl)
          · rename_i hcond1 _
            cases h
            rcases alookup_aset_cases _ _ _ _ hr' with ⟨rfl, rfl⟩ | ⟨_, hold⟩
            · exact absurd (by rw [hr]; rfl) hcond1
            · rw [hold] at hr
              exact Or.inl (by cases hr; rfl)
    | void input nowIso =>
      unfold applyOp ReceiptService.voidReceipt at h
      dsimp only at h
      cases hv : validateVoid input with
      | error e =>
        rw [hv] at h
        cases h
        rw [hr] at hr'
        exact Or.inl (by cases hr'; rfl)
      | ok v =>
        rw [hv] at h
        dsimp only at h
        cases hg : InMemoryReceiptStorage.getReceipt st v.tenantId v.receiptId with
        | none =>
          rw [hg] at h
          cases h
          rw [hr] at hr'
          exact Or.inl (by cases hr'; rfl)
        | some receipt =>
          rw [hg] at h
          dsimp only at h
          split at h
          · cases h
            rw [hr] at hr'
            exact Or.inl (by cases hr'; rfl)
          · rename_i hst
            unfold InMemoryReceiptStorage.updateReceipt at h
            dsimp only at h
            rw [show alookup
                (InMemoryReceiptStorage.getKey v.tenantId v.receiptId) st.receipts =
                some receipt from hg] at h
            dsimp only at h
            cases h
            rcases alookup_aset_cases _ _ _ _ hr' with ⟨rfl, rfl⟩ | ⟨_, hold⟩
            · have hrr : receipt = r := Option.some.inj ((hg : alookup _ _ = _).symm.trans hr)
              refine Or.inr ⟨?_, Or.inl rfl⟩
              rw [← hrr]
              exact not_not.mp hst
            · rw [hold] at hr
              exact Or.inl (by cases hr; rfl)
    | refund input nowIso =>
      unfold applyOp ReceiptService.refundReceipt at h
      dsimp only at h
      cases hv : validateRefund input with
      | error e =>
        rw [hv] at h
        cases h
        rw [hr] at hr'
        exact Or.inl (by cases hr'; rfl)
      | ok v =>
        rw [hv] at h
        dsimp only at h
        cases hg : InMemoryReceiptStorage.getReceipt st v.tenantId v.receiptId with
        | none =>
          rw [hg] at h
          cases h
          rw [hr] at hr'
          exact Or.inl (by cases hr'; rfl)
        | some receipt =>
          rw [hg] at h
          dsimp only at h
          split at h
          · cases h
            rw [hr] at hr'
            exact Or.inl (by cases hr'; rfl)
          · rename_i hst
            unfold InMemoryReceiptStorage.updateReceipt at h
            dsimp only at h
            rw [show alookup
                (InMemoryReceiptStorage.getKey v.tenantId v.receiptId) st.receipts =
                some receipt from hg] at h
            dsimp only at h
            cases h
            rcases alookup_aset_cases _ _ _ _ hr' with ⟨rfl, rfl⟩ | ⟨_, hold⟩
            · have hrr : receipt = r := Option.some.inj ((hg : alookup _ _ = _).symm.trans hr)
              refine Or.inr ⟨?_, Or.inr rfl⟩
              rw [← hrr]
              exact not_not.mp hst
            · rw [hold] at hr
              exact Or.inl (by cases hr; rfl)

/-- `C5_state_machine` instantiated: void of a missing receipt is not-found on
an unchanged state; void and refund of an already-voided receipt are
invalid-transition on an unchanged state. -/
theorem C5_witness :
    ReceiptService.voidReceipt vInpW iso2W .empty =
      (.error (.notFound vInpW.receiptId), .empty) ∧
    ReceiptService.voidReceipt vInpW iso2W st5 =
      (.error (.cannotVoid r5v.status), st5) ∧
    ReceiptService.refundReceipt rfInpW iso2W st5 =
      (.error (.cannotRefund r5v.status), st5) :=
  ⟨C5_state_machine.1 vInpW iso2W .empty (by decide) (by decide),
    C5_state_machine.2.2.1 vInpW iso2W st5 r5v (by decide) (by decide) (by decide),
    C5_state_machine.2.2.2.1 rfInpW iso2W st5 r5v (by decide) (by decide) (by decide)⟩

/-- Claim C1: `computeReceiptHash` is a function of the immutable proof
payload only — changing `status` and `metadata` leaves the digest unchanged —
and consequently, for every stored receipt in the `Issued` state whose hash
was computed at creation, `void` (resp. `refund`) succeeds, the hash and
verification code fields survive the status change verbatim, and `verify`
on the updated state still returns `valid = true`. -/
theorem C1_lifecycle_hash_invariance :
    (∀ (digest : HashInput → Str) (r : Receipt) (s : ReceiptStatus)
        (m : Option Metadata),
      computeReceiptHash digest { r with status := s, metadata := m } =
        computeReceiptHash digest r) ∧
    (∀ (digest : HashInput → Str) (input : VoidReceiptInput) (nowIso : Str)
        (st : InMemoryReceiptStorage) r,
      validateVoid input = .ok input →
      InMemoryReceiptStorage.getReceipt st input.tenantId input.receiptId = some r →
      r.status = .issued →
      r.hash = computeReceiptHash digest r →
      ∃ r' st', ReceiptService.voidReceipt input nowIso st = (.ok r', st') ∧
        r'.hash = r.hash ∧ r'.verificationCode = r.verificationCode ∧
        ReceiptService.verifyReceipt digest input.tenantId input.receiptId st' =
          .ok ⟨true, some r', none⟩) ∧
    (∀ (digest : HashInput → Str) (input : RefundReceiptInput) (nowIso : Str)
        (st : InMemoryReceiptStorage) r,
      validateRefund input = .ok input →
      InMemoryReceiptStorage.getReceipt st input.tenantId input.receiptId = some r →
      r.status = .issued →
      r.hash = computeReceiptHash digest r →
      ∃ r' st', ReceiptService.refundReceipt input nowIso st = (.ok r', st') ∧
        r'.hash = r.hash ∧ r'.verificationCode = r.verificationCode ∧
        ReceiptService.verifyReceipt digest input.tenantId input.receiptId st' =
          .ok ⟨true, some r', none⟩) := by
  refine ⟨fun digest r s m => rfl, ?_, ?_⟩
  · intro digest input nowIso st r hval hg hst hhash
    unfold ReceiptService.voidReceipt
    rw [hval]
    dsimp only
    rw [hg]
    dsimp only
    rw [if_neg (by simp [hst])]
    unfold InMemoryReceiptStorage.updateReceipt
    dsimp only
    rw [show alookup
        (InMemoryReceiptStorage.getKey input.tenantId input.receiptId) st.receipts =
        some r from hg]
    dsimp only
    refine ⟨_, _, rfl, rfl, rfl, ?_⟩
    have hvt : validateTenant input.tenantId = .ok input.tenantId :=
      validateTenant_ok_of (validVoidInput_tenant (validateVoid_ok_iff.mp hval).1)
    unfold ReceiptService.verifyReceipt
    rw [hvt]
    dsimp only
    rw [show InMemoryReceiptStorage.getReceipt
        ⟨aset (InMemoryReceiptStorage.getKey input.tenantId input.receiptId)
          (InMemoryReceiptStorage.applyUpdate r
            { status := some .voided,
              metadata := some (some (ReceiptService.voidMetadata r.metadata input nowIso)) })
          st.receipts, st.transactionIndex⟩
        input.tenantId input.receiptId =
        some (InMemoryReceiptStorage.applyUpdate r
          { status := some .voided,
            metadata := some (some (ReceiptService.voidMetadata r.metadata input nowIso)) })
      from alookup_aset_self _ _ _]
    dsimp only
    rw [if_pos (show verifyReceiptHash digest _ = true from ?_)]
    · unfold verifyReceiptHash
      have he : computeReceiptHash digest
          (InMemoryReceiptStorage.applyUpdate r
            { status := some .voided,
              metadata := some (some (ReceiptService.voidMetadata r.metadata input nowIso)) }) =
          computeReceiptHash digest r := rfl
      rw [he, ← hhash]
      exact beq_self_eq_true _
  · intro digest input nowIso st r hval hg hst hhash
    unfold ReceiptService.refundReceipt
    rw [hval]
    dsimp only
    rw [hg]
    dsimp only
    rw [if_neg (by simp [hst])]
    unfold InMemoryReceiptStorage.updateReceipt
    dsimp only
    rw [show alookup
        (InMemoryReceiptStorage.getKey input.tenantId input.receiptId) st.receipts =
        some r from hg]
    dsimp only
    refine ⟨_, _, rfl, rfl, rfl, ?_⟩
    have hvt : validateTenant input.tenantId = .ok input.tenantId :=
      validateTenant_ok_of (validRefundInput_tenant (validateRefund_ok_iff.mp hval).1)
    unfold ReceiptService.verifyReceipt
    rw [hvt]
    dsimp only
    rw [show InMemoryReceiptStorage.getReceipt
        ⟨aset (InMemoryReceiptStorage.getKey input.tenantId input.receiptId)
          (InMemoryReceiptStorage.applyUpdate r
            { status := some .refunded,
              metadata := some (some (ReceiptService.refundMetadata r.metadata input nowIso)) })
          st.receipts, st.transactionIndex⟩
        input.tenantId input.receiptId =
        some (InMemoryReceiptStorage.applyUpdate r
          { status := some .refunded,
            metadata := some (some (ReceiptService.refundMetadata r.metadata input nowIso)) })
      from alookup_aset_self _ _ _]
    dsimp only
    rw [if_pos (show verifyReceiptHash digest _ = true from ?_)]
    · unfold verifyReceiptHash
      have he : computeReceiptHash digest
          (InMemoryReceiptStorage.applyUpdate r
            { status := some .refunded,
              metadata := some (some (ReceiptService.refundMetadata r.metadata input nowIso)) }) =
          computeReceiptHash digest r := rfl
      rw [he, ← hhash]
      exact beq_self_eq_true _

/-- `C1_lifecycle_hash_invariance` instantiated at a stored issued receipt
voided and then verified. -/
theorem C1_witness :
    validateVoid vInpW = .ok vInpW ∧
    InMemoryReceiptStorage.getReceipt st1 vInpW.tenantId vInpW.receiptId =
      some r1W ∧
    r1W.status = .issued ∧ r1W.hash = computeReceiptHash digConst r1W ∧
    (∃ r' st', ReceiptService.voidReceipt vInpW iso2W st1 = (.ok r', st') ∧
      r'.hash = r1W.hash ∧ r'.verificationCode = r1W.verificationCode ∧
      ReceiptService.verifyReceipt digConst vInpW.tenantId vInpW.receiptId st' =
        .ok ⟨true, some r', none⟩) :=
  ⟨by decide, by decide, by decide, by decide,
    C1_lifecycle_hash_invariance.2.1 digConst vInpW iso2W st1 r1W
      (by decide) (by decide) (by decide) (by decide)⟩

end Receipts
